import Mathlib

/-!
Verification development for the health-agentic-workflow parameter-calibration
engine.  Each component of the source is shallowly embedded: the sequential
Kalman state estimator (src/etl/kalman_filter.py), the parameter proposal /
approval workflow (src/bayes_update/runner.py), the cap policy, the
orthogonalization step of the parameter estimators
(src/tools/estimate_parameters_direct.py and src/tools/energy_balance_model.py),
the sliding-window builder (src/tools/energy_balance_model.py), the
strict-interior window sums of the prod_train_windows view
(src/tools/create_production_windows.py), and the robust damping cleaner
(src/tools/energy_balance_model.py, robust_dampen).  Exact rational or real
arithmetic stands in for Python floats.
-/

/-! ### State estimator (src/etl/kalman_filter.py) -/

/-- Kalman filter state: `state_estimate` (x̂) and `covariance_estimate` (P). -/
structure KFState where
  x : ℚ
  p : ℚ
deriving DecidableEq, Repr

/-- `KalmanFilter.predict_step`: x̂ₜ|ₜ₋₁ = x̂ₜ₋₁, Pₜ|ₜ₋₁ = Pₜ₋₁ + days·Q. -/
def predict_step (Q : ℚ) (st : KFState) (days_since_last : ℤ) : ℚ × ℚ :=
  (st.x, st.p + (days_since_last : ℚ) * Q)

/-- `KalmanFilter.update_step`: K = P/(P+R), x̂ += K·innovation, P := (1−K)·P. -/
def update_step (R : ℚ) (measurement predicted_state predicted_covariance : ℚ) :
    ℚ × ℚ × ℚ :=
  let kalman_gain := predicted_covariance / (predicted_covariance + R)
  let innovation := measurement - predicted_state
  let updated_state := predicted_state + kalman_gain * innovation
  let updated_covariance := (1 - kalman_gain) * predicted_covariance
  (kalman_gain, updated_state, updated_covariance)

/-- `KalmanFilter.process_measurement`: predict, then update if a measurement
is present, else keep the predicted state with gain 0.0. -/
def process_measurement (Q R : ℚ) (st : KFState) (measurement : Option ℚ)
    (days_since_last : ℤ) : ℚ × KFState :=
  let pred := predict_step Q st days_since_last
  match measurement with
  | some z =>
      let upd := update_step R z pred.1 pred.2
      (upd.1, ⟨upd.2.1, upd.2.2⟩)
  | none => (0, ⟨pred.1, pred.2⟩)

/-- One output row of `run_kalman_filter`: (fact_date, state, covariance, gain),
the tuple appended to `results` and persisted to `daily_facts_filtered`. -/
structure KFRow where
  date : ℤ
  x : ℚ
  p : ℚ
  gain : ℚ
deriving DecidableEq, Repr

/-- The error taxonomy named by the spec.  The source of
src/etl/kalman_filter.py defines no exception class at all; this type records
what a raised error would look like so the run outcome can distinguish
raising from returning. -/
inductive KFError where
  | noMeasurementsError : KFError
deriving DecidableEq, Repr

/-- Observable outcome of `run_kalman_filter`: an early return after the
"No data found" print, an early return after the "No measurements found in
date range" print, a raised exception (never produced by the source), or a
completed run whose rows are persisted. -/
inductive KFOutcome where
  | noData : KFOutcome
  | noMeasurementsMessage : KFOutcome
  | raised : KFError → KFOutcome
  | completed : List KFRow → KFOutcome
deriving DecidableEq, Repr

/-- The rows persisted to `daily_facts_filtered` by an outcome: only a
completed run writes anything. -/
def writtenRows : KFOutcome → List KFRow
  | KFOutcome.completed rows => rows
  | _ => []

/-- Whether the outcome is a raised exception. -/
def isRaised : KFOutcome → Bool
  | KFOutcome.raised _ => true
  | _ => false

/-- The scan in `run_kalman_filter` for the first non-NULL measurement. -/
def firstMeasurement : List (ℤ × Option ℚ) → Option (ℤ × ℚ)
  | [] => none
  | (d, some z) :: _ => some (d, z)
  | (_, none) :: rest => firstMeasurement rest

/-- The day loop of `run_kalman_filter`: `days_since_last` is the current date
minus the date of the last *measured* day, and that date only advances on
measured days. -/
def kalmanLoop (Q R : ℚ) : KFState → ℤ → List (ℤ × Option ℚ) → List KFRow
  | _, _, [] => []
  | st, lastMeasDate, (d, z) :: rest =>
      let g := d - lastMeasDate
      let step := process_measurement Q R st z g
      let lastMeasDate' := if z.isSome then d else lastMeasDate
      ⟨d, step.2.x, step.2.p, step.1⟩ :: kalmanLoop Q R step.2 lastMeasDate' rest

/-- `run_kalman_filter` on the loaded series: empty data prints and returns;
a series with rows but no measurement prints "No measurements found in date
range" and returns; otherwise the filter starts at the first measurement with
x̂₀ = first measurement and P₀ = R, and every loaded day (including the days
before the first measured one) is pushed through `process_measurement`. -/
def run_kalman_filter (Q R : ℚ) (data : List (ℤ × Option ℚ)) : KFOutcome :=
  match data with
  | [] => KFOutcome.noData
  | _ =>
    match firstMeasurement data with
    | none => KFOutcome.noMeasurementsMessage
    | some (firstDate, z0) =>
        KFOutcome.completed (kalmanLoop Q R ⟨z0, R⟩ firstDate data)

/-! ### Parameter version store and approval workflow (src/bayes_update/runner.py) -/

/-- Proposal status, `PENDING → {APPROVED, REJECTED}`. -/
inductive PropStatus where
  | pending : PropStatus
  | approved : PropStatus
  | rejected : PropStatus
deriving DecidableEq, Repr

/-- A row of `model_params_timevarying`.  The version identifier is derived
from a date in the source (`to_char(asof_date, '"v"YYYY_MM_DD')`); dates stand
in for the derived names.  `effectiveEnd = none` marks the active row. -/
structure ParamVersion where
  paramsVersion : ℤ
  effectiveStart : ℤ
  effectiveEnd : Option ℤ
deriving DecidableEq, Repr

/-- A row of `proposed_model_param_updates`. -/
structure Proposal where
  proposalId : ℤ
  asofDate : ℤ
  baseParamsVersion : ℤ
  status : PropStatus
deriving DecidableEq, Repr

/-- A row of `audit_hil` (previous and new params version). -/
structure AuditRow where
  prevVersion : ℤ
  newVersion : ℤ
deriving DecidableEq, Repr

/-- The three tables touched by the approval SQL. -/
structure ParamStore where
  paramVersions : List ParamVersion
  proposals : List Proposal
  audit : List AuditRow
deriving DecidableEq, Repr

/-- The version name derived from the asof date
(`to_char(asof_date, '"v"YYYY_MM_DD')`); dates stand in for name strings. -/
def versionFromAsof (asof : ℤ) : ℤ := asof

/-- Active rows of `model_params_timevarying` (effective_end_date IS NULL). -/
def activeVersions (s : ParamStore) : List ParamVersion :=
  s.paramVersions.filter (fun v => v.effectiveEnd = none)

/-- Effect of executing the SQL printed by `print_approval_sql`:
(1) set the proposal's status to APPROVED, (2) insert a new
`model_params_timevarying` row with NULL end date built from the proposal,
(3) insert an `audit_hil` row.  No statement compares
`base_params_version` with the active version and no statement closes the
previously active row's end date. -/
def approval_sql_effect (s : ParamStore) (pid : ℤ) : ParamStore :=
  let proposals' := s.proposals.map (fun pr =>
    if pr.proposalId = pid then ⟨pr.proposalId, pr.asofDate, pr.baseParamsVersion, PropStatus.approved⟩
    else pr)
  let matching := proposals'.filter (fun pr => pr.proposalId = pid)
  let newVersions := matching.map (fun pr =>
    (⟨versionFromAsof pr.asofDate, pr.asofDate, none⟩ : ParamVersion))
  let newAudit := matching.map (fun pr =>
    (⟨pr.baseParamsVersion, versionFromAsof pr.asofDate⟩ : AuditRow))
  ⟨s.paramVersions ++ newVersions, proposals', s.audit ++ newAudit⟩

/-! ### Cap policy (src/bayes_update/runner.py, apply_caps) -/

/-- `np.sign` on exact rationals. -/
def np_sign (q : ℚ) : ℚ := if q < 0 then -1 else if q = 0 then 0 else 1

/-- `apply_caps`: relative changes against the priors, clipped to ±cap. -/
def apply_caps (alpha_hat c_hat prior_alpha prior_c cap : ℚ) : ℚ × ℚ :=
  let alpha_change := (alpha_hat - prior_alpha) / prior_alpha
  let c_change := (c_hat - prior_c) / prior_c
  (prior_alpha + np_sign alpha_change * min |alpha_change| cap * prior_alpha,
   prior_c + np_sign c_change * min |c_change| cap * prior_c)

/-- `apply_caps` with Python float division semantics made explicit: the body
divides by `prior_alpha` first and by `prior_c` second with no guard, so a
zero prior is a division-by-zero failure (`none`) before any value is
returned. -/
def apply_caps_checked (alpha_hat c_hat prior_alpha prior_c cap : ℚ) :
    Option (ℚ × ℚ) :=
  if prior_alpha = 0 then none
  else if prior_c = 0 then none
  else some (apply_caps alpha_hat c_hat prior_alpha prior_c cap)

/-- Lower end of the documented compensation bounds `c in [0.0, 0.5]`
(plausibility check of src/tools/estimate_parameters_direct.py). -/
def c_bound_lo : ℚ := 0

/-- Upper end of the documented compensation bounds `c in [0.0, 0.5]`. -/
def c_bound_hi : ℚ := 1 / 2

/-! ### Ordinary least squares with intercept (LinearRegression / np.linalg.lstsq) -/

/-- Pairwise product sum Σ uᵢ·vᵢ. -/
def dotSum (us vs : List ℚ) : ℚ := ((us.zip vs).map (fun p => p.1 * p.2)).sum

/-- Denominator n·Σx² − (Σx)² of the one-regressor normal equations. -/
def olsDenom (xs : List ℚ) : ℚ :=
  (xs.length : ℚ) * (xs.map (fun x => x * x)).sum - xs.sum * xs.sum

/-- Slope of the least-squares line of `ys` on `xs` (with intercept), the
unique normal-equation solution computed by `LinearRegression` /
`np.linalg.lstsq` on a full-rank design. -/
def olsSlope (xs ys : List ℚ) : ℚ :=
  ((xs.length : ℚ) * dotSum xs ys - xs.sum * ys.sum) / olsDenom xs

/-- Intercept of the least-squares line of `ys` on `xs`. -/
def olsIntercept (xs ys : List ℚ) : ℚ :=
  (ys.sum - olsSlope xs ys * xs.sum) / (xs.length : ℚ)

/-- One training window row with its summed energies
(`total_intake_kcal` / `intake_sum` and `total_workout_kcal` / `workout_sum`). -/
structure TrainRow where
  intakeSum : ℚ
  workoutSum : ℚ
deriving DecidableEq, Repr

/-- Orthogonalization step of src/tools/estimate_parameters_direct.py:
`ortho.fit(workout, intake)` then
`intake_ortho = intake − ortho.predict(workout)` — intake is the dependent
variable, workout the regressor. -/
def intake_ortho (train : List TrainRow) : List ℚ :=
  let xs := train.map (fun r => r.workoutSum)
  let ys := train.map (fun r => r.intakeSum)
  let b := olsSlope xs ys
  let a := olsIntercept xs ys
  train.map (fun r => r.intakeSum - (a + b * r.workoutSum))

/-- Orthogonalization step of `EnergyBalanceModel.fit_model`
(src/tools/energy_balance_model.py): `beta_ls = lstsq([1, intake], wk)` then
`wk_resid = wk − (beta0 + beta1·intake)` — workout is the dependent variable,
intake the regressor. -/
def wk_resid (train : List TrainRow) : List ℚ :=
  let xs := train.map (fun r => r.intakeSum)
  let ys := train.map (fun r => r.workoutSum)
  let b := olsSlope xs ys
  let a := olsIntercept xs ys
  train.map (fun r => r.workoutSum - (a + b * r.intakeSum))

/-- Modelled from the spec: "`workout_residual` is the residual of
`workout_sum` after regressing it on `intake_sum`".  Stated from the spec's
words for comparison with the two source variants. -/
def spec_workout_residual (train : List TrainRow) : List ℚ :=
  let xs := train.map (fun r => r.intakeSum)
  let ys := train.map (fun r => r.workoutSum)
  train.map (fun r =>
    r.workoutSum - (olsIntercept xs ys + olsSlope xs ys * r.intakeSum))

/-- Concrete three-window training set: workout sums 0,1,2 and intake sums
0,1,0 (scaled-down kcal units). -/
def c5Train : List TrainRow := [⟨0, 0⟩, ⟨1, 1⟩, ⟨0, 2⟩]

/-! ### Window builder (src/tools/energy_balance_model.py, build_windows) -/

/-- One preprocessed daily record as consumed by `build_windows`:
`_fm_clean` / `_lbm_clean` are the damped series (damping preserves the
missing pattern of the raw series, see the cleaner theorems). -/
structure DayRec where
  fact_date : ℤ
  intake_kcal : Option ℚ
  workout_kcal : Option ℚ
  fm_clean : Option ℚ
  lbm_clean : Option ℚ
deriving DecidableEq, Repr

/-- The window-level aggregation row produced by `build_windows`. -/
structure WindowRow where
  start_date : ℤ
  end_date : ℤ
  delta_fm_kg : Option ℚ
  intake_sum : ℚ
  workout_sum : ℚ
  mean_lbm : Option ℚ
  days : ℕ
deriving DecidableEq, Repr

/-- The sliding windows `df.iloc[i:i+window_days]` for
`i in range(len(df) − window_days + 1)`. -/
def slidingWindows (window_days : ℕ) (df : List DayRec) : List (List DayRec) :=
  (List.range (df.length + 1 - window_days)).map
    (fun i => (df.drop i).take window_days)

/-- Eligibility check of `build_windows`: intake and workout coverage at least
0.9, and at least `min_valid_days` non-missing damped fat-mass and lean-mass
days. -/
def window_eligible (min_valid_days : ℕ) (w : List DayRec) : Bool :=
  decide ((w.countP (fun r => r.intake_kcal.isSome) : ℚ) / (w.length : ℚ) ≥ 9 / 10) &&
  decide ((w.countP (fun r => r.workout_kcal.isSome) : ℚ) / (w.length : ℚ) ≥ 9 / 10) &&
  decide (w.countP (fun r => r.fm_clean.isSome) ≥ min_valid_days) &&
  decide (w.countP (fun r => r.lbm_clean.isSome) ≥ min_valid_days)

/-- NaN-propagating subtraction of the two endpoint `_fm_clean` values. -/
def deltaFm (w : List DayRec) : Option ℚ :=
  match (w.getLast?).bind (fun r => r.fm_clean), (w.head?).bind (fun r => r.fm_clean) with
  | some a, some b => some (a - b)
  | _, _ => none

/-- NaN-skipping mean of the `_lbm_clean` column. -/
def meanLbm (w : List DayRec) : Option ℚ :=
  let vals := w.filterMap (fun r => r.lbm_clean)
  if vals.length = 0 then none else some (vals.sum / (vals.length : ℚ))

/-- The aggregation row `build_windows` appends for an eligible window. -/
def mkWindowRow (window_days : ℕ) (w : List DayRec) : WindowRow :=
  ⟨(w.head?.map (fun r => r.fact_date)).getD 0,
   (w.getLast?.map (fun r => r.fact_date)).getD 0,
   deltaFm w,
   (w.filterMap (fun r => r.intake_kcal)).sum,
   (w.filterMap (fun r => r.workout_kcal)).sum,
   meanLbm w,
   window_days⟩

/-- `build_windows`: keep exactly the eligible sliding windows. -/
def build_windows (window_days min_valid_days : ℕ) (df : List DayRec) :
    List WindowRow :=
  (slidingWindows window_days df).filterMap (fun w =>
    if window_eligible min_valid_days w then some (mkWindowRow window_days w)
    else none)

/-- A 14-day stretch with only 9 days of fat mass present (days 0–8), full
intake/workout/lean coverage. -/
def c3Excluded : List DayRec :=
  (List.range 14).map (fun i =>
    ⟨(i : ℤ), some 2000, some 300, if i < 9 then some 20 else none, some 70⟩)

/-- A 14-day stretch with exactly 10 days of fat mass present (days 0–9), full
intake/workout/lean coverage. -/
def c3Included : List DayRec :=
  (List.range 14).map (fun i =>
    ⟨(i : ℤ), some 2000, some 300, if i < 10 then some 20 else none, some 70⟩)

/-! ### Strict-interior window sums (src/tools/create_production_windows.py) -/

/-- One row of `prod_train_daily`. -/
structure DailyRow where
  fact_date : ℤ
  intake_kcal : Option ℚ
  workout_kcal : Option ℚ
deriving DecidableEq, Repr

/-- Rows selected by `fact_date > start_date AND fact_date < end_date`. -/
def rowsBetween (daily : List DailyRow) (start_date end_date : ℤ) : List DailyRow :=
  daily.filter (fun r => decide (start_date < r.fact_date) && decide (r.fact_date < end_date))

/-- `intake_kcal_sum`: `SUM(intake_kcal)` over the strict interior; SQL SUM
skips NULLs and is NULL when no non-NULL value remains. -/
def intake_kcal_sum (daily : List DailyRow) (s e : ℤ) : Option ℚ :=
  let vals := (rowsBetween daily s e).filterMap (fun r => r.intake_kcal)
  if vals.length = 0 then none else some vals.sum

/-- `workout_kcal_sum`: `SUM(COALESCE(workout_kcal, 0))` over the strict
interior. -/
def workout_kcal_sum (daily : List DailyRow) (s e : ℤ) : Option ℚ :=
  let rows := rowsBetween daily s e
  if rows.length = 0 then none
  else some ((rows.map (fun r => r.workout_kcal.getD 0)).sum)

/-- `net_kcal_sum`: `SUM(intake_kcal − COALESCE(workout_kcal, 0))` over the
strict interior; a NULL intake makes the summand NULL, which SQL SUM skips. -/
def net_kcal_sum (daily : List DailyRow) (s e : ℤ) : Option ℚ :=
  let vals := (rowsBetween daily s e).filterMap
    (fun r => r.intake_kcal.map (fun iv => iv - r.workout_kcal.getD 0))
  if vals.length = 0 then none else some vals.sum

/-- Drop the rows dated exactly at the window endpoints. -/
def dropEndpointRows (daily : List DailyRow) (s e : ℤ) : List DailyRow :=
  daily.filter (fun r => decide (r.fact_date ≠ s) && decide (r.fact_date ≠ e))

/-! ### Measurement cleaner (src/tools/energy_balance_model.py, robust_dampen) -/

/-- Boolean order on reals (classical), used only to sort window values. -/
noncomputable def rleB (a b : ℝ) : Bool := @decide (a ≤ b) (Classical.propDecidable _)

/-- pandas median of a list of observed (non-NaN) values: middle of the sorted
list, or the mean of the two middle values. -/
noncomputable def listMedian (l : List ℝ) : ℝ :=
  let srt := l.mergeSort (fun a b => rleB a b)
  if srt.length % 2 = 1 then srt.getD (srt.length / 2) 0
  else (srt.getD (srt.length / 2 - 1) 0 + srt.getD (srt.length / 2) 0) / 2

/-- `s.rolling(window, min_periods=1, center=True).median()`: at position `i`
the window covers the rows `i − (window−1)/2 … i + window/2` clipped to the
series, NaNs are skipped, and the output is NaN only when every value in the
window is NaN. -/
noncomputable def rollingMedian (window : ℕ) (s : List (Option ℝ)) : List (Option ℝ) :=
  (List.range s.length).map (fun i =>
    let lo := i - (window - 1) / 2
    let vals := ((s.drop lo).take (i + window / 2 + 1 - lo)).filterMap id
    if vals.length = 0 then none else some (listMedian vals))

/-- `(s − med).abs()` with NaN propagation. -/
noncomputable def absDevSeries (window : ℕ) (s : List (Option ℝ)) : List (Option ℝ) :=
  List.zipWith (fun a m =>
    match a, m with
    | some x, some me => some |x - me|
    | _, _ => none) s (rollingMedian window s)

/-- The rolling MAD series of `robust_dampen`. -/
noncomputable def madSeries (window : ℕ) (s : List (Option ℝ)) : List (Option ℝ) :=
  rollingMedian window (absDevSeries window s)

/-- The `eps = 1e-9` regulariser of `robust_dampen`. -/
noncomputable def dampEps : ℝ := 1 / 10 ^ 9

/-- The `1e-6` tolerance of the `z.abs() > 1e-6` mask. -/
noncomputable def zTol : ℝ := 1 / 10 ^ 6

/-- Pointwise damping of `robust_dampen`: `z = (x − med)/(mad + eps)`,
`damp = med + (x − med)·tanh(clip(z, −k, k))/clip(z, −k, k)`, falling back to
the raw value where `|z| ≤ 1e-6`. -/
noncomputable def dampPoint (k x me ma : ℝ) : ℝ :=
  let z := (x - me) / (ma + dampEps)
  if |z| > zTol then
    let c := min (max z (-k)) k
    me + (x - me) * Real.tanh c / c
  else x

/-- Value of `robust_dampen` at position `i`: NaN stays NaN; a present value
whose median or MAD is NaN keeps its raw value (NaN comparisons mask to the
raw series); otherwise the pointwise damp applies. -/
noncomputable def dampAt (window : ℕ) (k : ℝ) (s : List (Option ℝ)) (i : ℕ) : Option ℝ :=
  match s.getD i none, (rollingMedian window s).getD i none, (madSeries window s).getD i none with
  | some x, some me, some ma => some (dampPoint k x me ma)
  | some x, some _, none => some x
  | some x, none, _ => some x
  | none, _, _ => none

/-- `robust_dampen`: the damped series, one output value per input row. -/
noncomputable def robust_dampen (window : ℕ) (k : ℝ) (s : List (Option ℝ)) :
    List (Option ℝ) :=
  (List.range s.length).map (dampAt window k s)

/-- The real value carried by an optional observation (0 for NaN). -/
noncomputable def oval (o : Option ℝ) : ℝ := o.getD 0

/-- The rolling-median reference value at position `i`. -/
noncomputable def medAt (window : ℕ) (s : List (Option ℝ)) (i : ℕ) : ℝ :=
  oval ((rollingMedian window s).getD i none)


/-- Concrete store: version 1 superseded (end date 100), version 2 active,
and one PENDING proposal whose base version is the stale version 1. -/
def c7Store : ParamStore :=
  ⟨[⟨1, 0, some 100⟩, ⟨2, 100, none⟩], [⟨7, 200, 1, PropStatus.pending⟩], []⟩

/-- Concrete series: a missing row 200 days before the first measured day. -/
def c2Data : List (ℤ × Option ℚ) := [(0, none), (200, some 80)]

/-- Concrete series: a constant measurement on days 0, 10 and 20. -/
def c1Data : List (ℤ × Option ℚ) := [(0, some 0), (10, some 0), (20, some 0)]

/-- Concrete daily table with distinct dates 0, 1, 6. -/
def c9Daily : List DailyRow := [⟨0, some 1, some 2⟩, ⟨1, some 3, none⟩, ⟨6, some 5, some 1⟩]

/-! ### Helper lemmas -/

theorem abs_np_sign_le (q : ℚ) : |np_sign q| ≤ 1 := by
  unfold np_sign; split_ifs <;> norm_num

theorem np_sign_mul_abs (q : ℚ) : np_sign q * |q| = q := by
  unfold np_sign
  split_ifs with h1 h2
  · rw [abs_of_neg h1]; ring
  · rw [h2]; simp
  · rw [abs_of_pos (lt_of_le_of_ne (not_lt.mp h1) (Ne.symm h2))]; ring

theorem cap_coord (h p cap : ℚ) (hp : 0 < p) (hcap : 0 ≤ cap) :
    |p + np_sign ((h - p) / p) * min |(h - p) / p| cap * p - p| ≤ cap * p ∧
    (|h - p| ≤ cap * p → p + np_sign ((h - p) / p) * min |(h - p) / p| cap * p = h) := by
  set ch := (h - p) / p with hch
  have hmin0 : 0 ≤ min |ch| cap := le_min (abs_nonneg _) hcap
  constructor
  · have hrw : p + np_sign ch * min |ch| cap * p - p = np_sign ch * min |ch| cap * p := by
      ring
    rw [hrw, abs_mul, abs_mul, abs_of_nonneg hmin0, abs_of_pos hp]
    calc |np_sign ch| * min |ch| cap * p ≤ 1 * cap * p := by
          apply mul_le_mul_of_nonneg_right _ hp.le
          exact mul_le_mul (abs_np_sign_le ch) (min_le_right _ _) hmin0 zero_le_one
      _ = cap * p := by ring
  · intro hle
    have hchle : |ch| ≤ cap := by
      rw [hch, abs_div, abs_of_pos hp, div_le_iff₀ hp]
      exact hle
    have hsgn : np_sign ch * min |ch| cap * p = ch * p := by
      rw [min_eq_left hchle, np_sign_mul_abs]
    rw [hsgn, hch]
    field_simp

theorem firstMeasurement_eq_none (data : List (ℤ × Option ℚ))
    (hall : ∀ q ∈ data, q.2 = none) : firstMeasurement data = none := by
  induction data with
  | nil => rfl
  | cons a rest ih =>
      obtain ⟨d, z⟩ := a
      have hz : z = none := hall (d, z) (List.mem_cons_self _ _)
      subst hz
      exact ih (fun q hq => hall q (List.mem_cons_of_mem _ hq))

/-! ### Claim theorems -/

/-- Claim C8 (confirmed): for positive priors and a nonnegative cap fraction,
`apply_caps` moves each parameter by at most `cap` times its prior, and passes
the fitted value through unchanged whenever its relative change is already
within the cap. -/
theorem C8_apply_caps_cap (alpha_hat c_hat prior_alpha prior_c cap : ℚ)
    (hpa : 0 < prior_alpha) (hpc : 0 < prior_c) (hcap : 0 ≤ cap) :
    |(apply_caps alpha_hat c_hat prior_alpha prior_c cap).1 - prior_alpha| ≤ cap * prior_alpha ∧
    |(apply_caps alpha_hat c_hat prior_alpha prior_c cap).2 - prior_c| ≤ cap * prior_c ∧
    (|alpha_hat - prior_alpha| ≤ cap * prior_alpha →
      (apply_caps alpha_hat c_hat prior_alpha prior_c cap).1 = alpha_hat) ∧
    (|c_hat - prior_c| ≤ cap * prior_c →
      (apply_caps alpha_hat c_hat prior_alpha prior_c cap).2 = c_hat) := by
  have ha := cap_coord alpha_hat prior_alpha cap hpa hcap
  have hc := cap_coord c_hat prior_c cap hpc hcap
  exact ⟨ha.1, hc.1, ha.2, hc.2⟩

/-- Witness for C8 at a cap of 3%: fitted alpha 110 against prior 100 and
fitted c 2 against prior 1 are both clipped to within the cap. -/
theorem C8_apply_caps_cap_witness :
    (0:ℚ) < 100 ∧ (0:ℚ) < 1 ∧ (0:ℚ) ≤ 3/100 ∧
    |(apply_caps 110 2 100 1 (3/100)).1 - 100| ≤ 3/100 * 100 ∧
    |(apply_caps 110 2 100 1 (3/100)).2 - 1| ≤ 3/100 * 1 := by
  have h := C8_apply_caps_cap 110 2 100 1 (3/100) (by norm_num) (by norm_num) (by norm_num)
  exact ⟨by norm_num, by norm_num, by norm_num, h.1, h.2.1⟩

/-- Claim C10 (confirmed): `apply_caps` divides by the prior compensation with
no guard, so a prior compensation of exactly 0 — which sits inside the
documented plausibility bounds c in [0, 0.5] — is a division-by-zero failure
for every fitted input. -/
theorem C10_zero_prior_c (alpha_hat c_hat prior_alpha cap : ℚ) :
    apply_caps_checked alpha_hat c_hat prior_alpha 0 cap = none ∧
    c_bound_lo ≤ 0 ∧ 0 ≤ c_bound_hi := by
  refine ⟨?_, by norm_num [c_bound_lo], by norm_num [c_bound_hi]⟩
  unfold apply_caps_checked
  by_cases h : prior_alpha = 0 <;> simp [h]

/-- Claim C7 (code_bug): the approval SQL promotes a proposal whose
base version (1) is no longer the active parameter set (2): the proposal is
marked APPROVED and a second active row is inserted, with no
optimistic-concurrency failure. -/
theorem C7_stale_approval_eval :
    (activeVersions c7Store).map (fun v => v.paramsVersion) = [2] ∧
    c7Store.proposals = [⟨7, 200, 1, PropStatus.pending⟩] ∧
    ¬((1 : ℤ) = 2) ∧
    approval_sql_effect c7Store 7 =
      ⟨[⟨1, 0, some 100⟩, ⟨2, 100, none⟩, ⟨200, 200, none⟩],
       [⟨7, 200, 1, PropStatus.approved⟩], [⟨1, 200⟩]⟩ ∧
    (activeVersions (approval_sql_effect c7Store 7)).map (fun v => v.paramsVersion) =
      [2, 200] := by
  decide

/-- Claim C2 (code_bug): with the default Q = 0.0196 and R = 2.89, a series
whose rows start 200 days before its first measurement is processed with a
negative `days_since_last`, driving the covariance negative and emitting the
Kalman gain −103/186 < 0. -/
theorem C2_gain_eval :
    run_kalman_filter (49/2500) (289/100) c2Data =
      KFOutcome.completed
        [⟨0, 80, -103/100, 0⟩, ⟨200, 80, -29767/18600, -103/186⟩] ∧
    ¬(0 ≤ (-103 : ℚ)/186) := by
  constructor
  · simp only [run_kalman_filter, c2Data, firstMeasurement, kalmanLoop, process_measurement,
      predict_step, update_step, Option.isSome]
    norm_num
  · norm_num

/-- Counterexample to claim C1 as stated: with Q = R = 1 and measurements on
days 0, 10, 20 (P₀ = R), days 10 and 20 are successive processed days, both
measured, both with elapsed gap 10, yet the posterior variance after day 20
(251/274) exceeds the one after day 10 (21/23). -/
theorem C1_counterexample :
    run_kalman_filter 1 1 c1Data =
      KFOutcome.completed
        [⟨0, 0, 1/2, 1/2⟩, ⟨10, 0, 21/23, 21/23⟩, ⟨20, 0, 251/274, 251/274⟩] ∧
    ¬((251 : ℚ)/274 ≤ 21/23) := by
  constructor
  · simp only [run_kalman_filter, c1Data, firstMeasurement, kalmanLoop, process_measurement,
      predict_step, update_step, Option.isSome]
    norm_num
  · norm_num

/-- Claim C1 (corrected): on a measurement-free day the posterior variance
grows by exactly `days_since_last · Q`, and across two successive measured
days at the same gap `g` the posterior variance is non-increasing *provided*
the earlier posterior `P` is at or above the stationary covariance for that
gap, i.e. `g·Q·R ≤ P² + g·Q·P`; without that proviso it can increase
(see `C1_counterexample`). -/
theorem C1_variance (Q R x P z : ℚ) (g : ℤ) (hR : 0 < R)
    (hgQ : 0 ≤ (g : ℚ) * Q) (hP : 0 ≤ P)
    (hstat : (g : ℚ) * Q * R ≤ P ^ 2 + (g : ℚ) * Q * P) :
    (process_measurement Q R ⟨x, P⟩ none g).2.p = P + (g : ℚ) * Q ∧
    (process_measurement Q R ⟨x, P⟩ (some z) g).2.p ≤ P := by
  constructor
  · simp [process_measurement, predict_step]
  · have hgoal : (process_measurement Q R ⟨x, P⟩ (some z) g).2.p =
        (1 - (P + (g : ℚ) * Q) / ((P + (g : ℚ) * Q) + R)) * (P + (g : ℚ) * Q) := by
      simp [process_measurement, predict_step, update_step]
    rw [hgoal]
    set pc := P + (g : ℚ) * Q with hpc
    have hpc0 : 0 ≤ pc := by rw [hpc]; linarith
    have hden : 0 < pc + R := by linarith
    have hfac : 1 - pc / (pc + R) = R / (pc + R) := by field_simp
    rw [hfac, div_mul_eq_mul_div, div_le_iff₀ hden]
    nlinarith [hstat]

/-- Witness for C1: at Q = R = 1, gap 1, prior posterior P = 1, the
stationarity proviso holds and the posterior after a measured day is 2/3 ≤ 1,
while a missing day grows the variance to exactly 2. -/
theorem C1_variance_witness :
    (process_measurement 1 1 ⟨5, 1⟩ none 1).2.p = 1 + ((1 : ℤ) : ℚ) * 1 ∧
    (process_measurement 1 1 ⟨5, 1⟩ (some 4) 1).2.p ≤ 1 :=
  C1_variance 1 1 5 1 4 1 (by norm_num) (by norm_num) (by norm_num) (by norm_num)

/-- Counterexample to claim C6 as stated: a two-day series with no
measurement makes `run_kalman_filter` return the "No measurements found"
early-return outcome — a normal return, not a raised `NoMeasurementsError`
(no such exception exists in the source). -/
theorem C6_counterexample :
    run_kalman_filter (49/2500) (289/100) [(0, none), (1, none)] =
      KFOutcome.noMeasurementsMessage ∧
    KFOutcome.noMeasurementsMessage ≠ KFOutcome.raised KFError.noMeasurementsError := by
  decide

/-- Claim C6 (corrected): when the loaded series has no measurement at all the
run aborts before any write — no rows are persisted and the outcome on a
non-empty series is the "No measurements found in date range" early return —
but it returns normally instead of raising `NoMeasurementsError`. -/
theorem C6_aborts_without_write (Q R : ℚ) (data : List (ℤ × Option ℚ))
    (hall : ∀ q ∈ data, q.2 = none) :
    writtenRows (run_kalman_filter Q R data) = [] ∧
    isRaised (run_kalman_filter Q R data) = false ∧
    (data ≠ [] → run_kalman_filter Q R data = KFOutcome.noMeasurementsMessage) := by
  cases data with
  | nil => exact ⟨rfl, rfl, fun hne => absurd rfl hne⟩
  | cons a rest =>
      have hfm : firstMeasurement (a :: rest) = none :=
        firstMeasurement_eq_none _ hall
      have hrun : run_kalman_filter Q R (a :: rest) = KFOutcome.noMeasurementsMessage := by
        obtain ⟨d, z⟩ := a
        simp only [run_kalman_filter, hfm]
      exact ⟨by rw [hrun]; rfl, by rw [hrun]; rfl, fun _ => hrun⟩

/-- Witness for C6 on the one-day all-missing series. -/
theorem C6_aborts_without_write_witness :
    writtenRows (run_kalman_filter 1 1 [((0:ℤ), (none : Option ℚ))]) = [] ∧
    isRaised (run_kalman_filter 1 1 [((0:ℤ), (none : Option ℚ))]) = false ∧
    run_kalman_filter 1 1 [((0:ℤ), (none : Option ℚ))] = KFOutcome.noMeasurementsMessage := by
  have h := C6_aborts_without_write 1 1 [((0:ℤ), (none : Option ℚ))]
    (by intro q hq; rcases List.mem_singleton.mp hq with rfl; rfl)
  exact ⟨h.1, h.2.1, h.2.2 (by simp)⟩

/-- Counterexample to claim C5 as stated: on the concrete training set
`c5Train` the orthogonalized feature computed by
src/tools/estimate_parameters_direct.py is the intake-on-workout residual
[−1/3, 2/3, −1/3], not the workout-on-intake residual [−1, 0, 1] named by the
spec. -/
theorem C5_counterexample :
    intake_ortho c5Train = [-(1/3), 2/3, -(1/3)] ∧
    spec_workout_residual c5Train = [-1, 0, 1] ∧
    intake_ortho c5Train ≠ spec_workout_residual c5Train := by
  have h1 : intake_ortho c5Train = [-(1/3), 2/3, -(1/3)] := by
    simp only [intake_ortho, c5Train, olsSlope, olsIntercept, olsDenom, dotSum, List.map,
      List.zip, List.zipWith, List.sum_cons, List.sum_nil, List.length]
    norm_num
  have h2 : spec_workout_residual c5Train = [-1, 0, 1] := by
    simp only [spec_workout_residual, c5Train, olsSlope, olsIntercept, olsDenom, dotSum, List.map,
      List.zip, List.zipWith, List.sum_cons, List.sum_nil, List.length]
    norm_num
  refine ⟨h1, h2, ?_⟩
  intro h
  rw [h1, h2] at h
  simp at h

theorem dotSum_map {α : Type} (l : List α) (f g : α → ℚ) :
    dotSum (l.map f) (l.map g) = (l.map (fun r => f r * g r)).sum := by
  unfold dotSum
  rw [List.zip_map', List.map_map]
  rfl

theorem sum_map_resid {α : Type} (l : List α) (a b : ℚ) (fx fy : α → ℚ) :
    (l.map (fun r => fy r - (a + b * fx r))).sum =
      (l.map fy).sum - ((l.length : ℚ) * a + b * (l.map fx).sum) := by
  induction l with
  | nil => simp
  | cons x t ih =>
      simp only [List.map_cons, List.sum_cons, ih, List.length_cons]
      push_cast
      ring

theorem sum_map_resid_mul {α : Type} (l : List α) (a b : ℚ) (fx fy : α → ℚ) :
    (l.map (fun r => (fy r - (a + b * fx r)) * fx r)).sum =
      (l.map (fun r => fx r * fy r)).sum -
        (a * (l.map fx).sum + b * (l.map (fun r => fx r * fx r)).sum) := by
  induction l with
  | nil => simp
  | cons x t ih =>
      simp only [List.map_cons, List.sum_cons, ih]
      ring

theorem ols_resid_orthogonal {α : Type} (l : List α) (fx fy : α → ℚ)
    (hn : l ≠ []) (hd : olsDenom (l.map fx) ≠ 0) :
    (l.map (fun r =>
      fy r - (olsIntercept (l.map fx) (l.map fy) + olsSlope (l.map fx) (l.map fy) * fx r))).sum = 0 ∧
    (l.map (fun r =>
      (fy r - (olsIntercept (l.map fx) (l.map fy) + olsSlope (l.map fx) (l.map fy) * fx r)) * fx r)).sum = 0 := by
  have hn0 : ((l.length : ℚ)) ≠ 0 := by
    have hpos := List.length_pos.mpr hn
    exact_mod_cast Nat.pos_iff_ne_zero.mp hpos
  have hxx : ((l.map fx).map (fun v => v * v)).sum = (l.map (fun r => fx r * fx r)).sum := by
    rw [List.map_map]
    rfl
  have hdenom : olsDenom (l.map fx) =
      (l.length : ℚ) * (l.map (fun r => fx r * fx r)).sum - (l.map fx).sum * (l.map fx).sum := by
    unfold olsDenom
    rw [hxx, List.length_map]
  have hE : (l.length : ℚ) * (l.map (fun r => fx r * fx r)).sum -
      (l.map fx).sum * (l.map fx).sum ≠ 0 := by
    rw [hdenom] at hd
    exact hd
  have hb : olsSlope (l.map fx) (l.map fy) =
      ((l.length : ℚ) * (l.map (fun r => fx r * fy r)).sum - (l.map fx).sum * (l.map fy).sum) /
        ((l.length : ℚ) * (l.map (fun r => fx r * fx r)).sum - (l.map fx).sum * (l.map fx).sum) := by
    unfold olsSlope
    rw [dotSum_map, hdenom, List.length_map]
  have ha : olsIntercept (l.map fx) (l.map fy) =
      ((l.map fy).sum - olsSlope (l.map fx) (l.map fy) * (l.map fx).sum) / (l.length : ℚ) := by
    unfold olsIntercept
    rw [List.length_map]
  constructor
  · rw [sum_map_resid, ha, hb]
    field_simp
    ring
  · rw [sum_map_resid_mul, ha, hb]
    field_simp
    ring

/-- Claim C5 (corrected): the workout-on-intake convention is implemented in
the energy_balance_model estimator — its `wk_resid` sums to zero and is
orthogonal to `intake_sum`, i.e. it is the least-squares residual of
`workout_sum` regressed on `intake_sum` — while the estimate_parameters_direct
variant implements the opposite convention: its `intake_ortho` sums to zero
and is orthogonal to `workout_sum` (see `C5_counterexample`). -/
theorem C5_orthogonalized (train : List TrainRow) (hn : train ≠ [])
    (hdi : olsDenom (train.map (fun r => r.intakeSum)) ≠ 0)
    (hdw : olsDenom (train.map (fun r => r.workoutSum)) ≠ 0) :
    (wk_resid train).sum = 0 ∧
    dotSum (wk_resid train) (train.map (fun r => r.intakeSum)) = 0 ∧
    (intake_ortho train).sum = 0 ∧
    dotSum (intake_ortho train) (train.map (fun r => r.workoutSum)) = 0 := by
  have hwk : wk_resid train = train.map (fun r =>
      r.workoutSum - (olsIntercept (train.map (fun r => r.intakeSum)) (train.map (fun r => r.workoutSum)) +
        olsSlope (train.map (fun r => r.intakeSum)) (train.map (fun r => r.workoutSum)) * r.intakeSum)) := rfl
  have hio : intake_ortho train = train.map (fun r =>
      r.intakeSum - (olsIntercept (train.map (fun r => r.workoutSum)) (train.map (fun r => r.intakeSum)) +
        olsSlope (train.map (fun r => r.workoutSum)) (train.map (fun r => r.intakeSum)) * r.workoutSum)) := rfl
  have h1 := ols_resid_orthogonal train (fun r => r.intakeSum) (fun r => r.workoutSum) hn hdi
  have h2 := ols_resid_orthogonal train (fun r => r.workoutSum) (fun r => r.intakeSum) hn hdw
  refine ⟨?_, ?_, ?_, ?_⟩
  · rw [hwk]
    exact h1.1
  · rw [hwk, dotSum_map]
    exact h1.2
  · rw [hio]
    exact h2.1
  · rw [hio, dotSum_map]
    exact h2.2

/-- Witness for C5 on the concrete training set `c5Train`. -/
theorem C5_orthogonalized_witness :
    (wk_resid c5Train).sum = 0 ∧
    dotSum (wk_resid c5Train) (c5Train.map (fun r => r.intakeSum)) = 0 ∧
    (intake_ortho c5Train).sum = 0 ∧
    dotSum (intake_ortho c5Train) (c5Train.map (fun r => r.workoutSum)) = 0 := by
  have hne : c5Train ≠ [] := by simp [c5Train]
  have hdi : olsDenom (c5Train.map (fun r => r.intakeSum)) ≠ 0 := by
    simp only [c5Train, olsDenom, List.map, List.sum_cons, List.sum_nil, List.length]
    norm_num
  have hdw : olsDenom (c5Train.map (fun r => r.workoutSum)) ≠ 0 := by
    simp only [c5Train, olsDenom, List.map, List.sum_cons, List.sum_nil, List.length]
    norm_num
  exact C5_orthogonalized c5Train hne hdi hdw

theorem window_eligible_count (m : ℕ) (w : List DayRec)
    (h : window_eligible m w = true) :
    m ≤ w.countP (fun r => r.fm_clean.isSome) ∧
    m ≤ w.countP (fun r => r.lbm_clean.isSome) := by
  unfold window_eligible at h
  simp only [Bool.and_eq_true, decide_eq_true_eq] at h
  exact ⟨h.1.2, h.2⟩

theorem c3_slide_excl : slidingWindows 14 c3Excluded = [c3Excluded] := by decide

theorem c3_count_excl : List.countP (fun r => r.fm_clean.isSome) c3Excluded = 9 := by decide

theorem c3_eligible_excl : window_eligible 10 c3Excluded = false := by
  cases hb : window_eligible 10 c3Excluded with
  | false => rfl
  | true =>
      have h9 := (window_eligible_count 10 c3Excluded hb).1
      rw [c3_count_excl] at h9
      omega

theorem c3_eligible_incl : window_eligible 10 c3Included = true := by
  have hci : List.countP (fun r => r.intake_kcal.isSome) c3Included = 14 := by decide
  have hcw : List.countP (fun r => r.workout_kcal.isSome) c3Included = 14 := by decide
  have hcf : List.countP (fun r => r.fm_clean.isSome) c3Included = 10 := by decide
  have hcl : List.countP (fun r => r.lbm_clean.isSome) c3Included = 14 := by decide
  have hlen : c3Included.length = 14 := by decide
  unfold window_eligible
  simp only [Bool.and_eq_true, decide_eq_true_eq, hci, hcw, hcf, hcl, hlen]
  norm_num

theorem c3_build_excl : build_windows 14 10 c3Excluded = [] := by
  unfold build_windows
  rw [c3_slide_excl]
  simp [c3_eligible_excl]

theorem c3_build_incl : build_windows 14 10 c3Included = [mkWindowRow 14 c3Included] := by
  unfold build_windows
  have h : slidingWindows 14 c3Included = [c3Included] := by decide
  rw [h]
  simp [c3_eligible_incl]

theorem rowsBetween_dropEndpoints (daily : List DailyRow) (s e : ℤ) :
    rowsBetween (dropEndpointRows daily s e) s e = rowsBetween daily s e := by
  unfold rowsBetween dropEndpointRows
  rw [List.filter_filter]
  apply List.filter_congr
  intro r _
  by_cases h1 : s < r.fact_date
  · by_cases h2 : r.fact_date < e
    · have hne1 : r.fact_date ≠ s := by omega
      have hne2 : r.fact_date ≠ e := by omega
      simp [h1, h2, hne1, hne2]
    · simp [h2]
  · simp [h1]

/-- Claim C9 (confirmed): the energy sums of an accepted window aggregate
only rows dated strictly between start_date and end_date — removing the rows
dated exactly at the endpoints changes none of intake_kcal_sum,
workout_kcal_sum or net_kcal_sum — and for a window of length k with distinct
row dates at most k − 2 rows contribute. -/
theorem C9_strict_interior (daily : List DailyRow) (s e : ℤ) (k : ℕ)
    (hnodup : (daily.map (fun r => r.fact_date)).Nodup)
    (hk : 2 ≤ k) (he : e = s + (k : ℤ) - 1) :
    intake_kcal_sum (dropEndpointRows daily s e) s e = intake_kcal_sum daily s e ∧
    workout_kcal_sum (dropEndpointRows daily s e) s e = workout_kcal_sum daily s e ∧
    net_kcal_sum (dropEndpointRows daily s e) s e = net_kcal_sum daily s e ∧
    (rowsBetween daily s e).length ≤ k - 2 := by
  have key := rowsBetween_dropEndpoints daily s e
  refine ⟨?_, ?_, ?_, ?_⟩
  · unfold intake_kcal_sum
    rw [key]
  · unfold workout_kcal_sum
    rw [key]
  · unfold net_kcal_sum
    rw [key]
  · have hsl : List.Sublist (rowsBetween daily s e) daily := List.filter_sublist daily
    have hnd : ((rowsBetween daily s e).map (fun r => r.fact_date)).Nodup :=
      List.Nodup.sublist (List.Sublist.map _ hsl) hnodup
    have hsubset : ((rowsBetween daily s e).map (fun r => r.fact_date)).toFinset ⊆
        Finset.Ioo s e := by
      intro d hd
      rw [List.mem_toFinset] at hd
      obtain ⟨r, hr, rfl⟩ := List.mem_map.mp hd
      have hrmem := List.of_mem_filter hr
      simp only [Bool.and_eq_true, decide_eq_true_eq] at hrmem
      exact Finset.mem_Ioo.mpr hrmem
    have hcard : ((rowsBetween daily s e).map (fun r => r.fact_date)).toFinset.card ≤
        (Finset.Ioo s e).card := Finset.card_le_card hsubset
    rw [List.toFinset_card_of_nodup hnd] at hcard
    rw [List.length_map] at hcard
    rw [Int.card_Ioo] at hcard
    have htn : (e - s - 1).toNat = k - 2 := by omega
    omega


/-- Claim C3 (confirmed): `build_windows` includes a window only if at least
`min_valid_days` of its days have non-missing (damped) fat mass and lean
mass; in particular the 14-day window with 9 fat-mass days is excluded at
`min_valid_days = 10` while the one with exactly 10 is included. -/
theorem C3_min_valid_days (m : ℕ) (w : List DayRec)
    (h : window_eligible m w = true) :
    (m ≤ w.countP (fun r => r.fm_clean.isSome) ∧
     m ≤ w.countP (fun r => r.lbm_clean.isSome)) ∧
    build_windows 14 10 c3Excluded = [] ∧
    build_windows 14 10 c3Included = [mkWindowRow 14 c3Included] :=
  ⟨window_eligible_count m w h, c3_build_excl, c3_build_incl⟩

/-- Witness for C3 at the eligible 10-of-14 window. -/
theorem C3_min_valid_days_witness :
    window_eligible 10 c3Included = true ∧
    ((10 ≤ c3Included.countP (fun r => r.fm_clean.isSome) ∧
      10 ≤ c3Included.countP (fun r => r.lbm_clean.isSome)) ∧
     build_windows 14 10 c3Excluded = [] ∧
     build_windows 14 10 c3Included = [mkWindowRow 14 c3Included]) :=
  ⟨c3_eligible_incl, C3_min_valid_days 10 c3Included c3_eligible_incl⟩

/-- Witness for C9 on the daily table with dates 0, 1, 6 and the 7-day window
from 0 to 6. -/
theorem C9_strict_interior_witness :
    intake_kcal_sum (dropEndpointRows c9Daily 0 6) 0 6 = intake_kcal_sum c9Daily 0 6 ∧
    workout_kcal_sum (dropEndpointRows c9Daily 0 6) 0 6 = workout_kcal_sum c9Daily 0 6 ∧
    net_kcal_sum (dropEndpointRows c9Daily 0 6) 0 6 = net_kcal_sum c9Daily 0 6 ∧
    (rowsBetween c9Daily 0 6).length ≤ 7 - 2 :=
  C9_strict_interior c9Daily 0 6 7 (by decide) (by norm_num) (by norm_num)

theorem mul_cosh_sub_sinh_monotone : Monotone (fun t : ℝ => t * Real.cosh t - Real.sinh t) := by
  apply monotone_of_deriv_nonneg
  · exact (differentiable_id.mul Real.differentiable_cosh).sub Real.differentiable_sinh
  · intro t
    have hd : HasDerivAt (fun t : ℝ => t * Real.cosh t - Real.sinh t)
        (1 * Real.cosh t + t * Real.sinh t - Real.cosh t) t :=
      ((hasDerivAt_id t).mul (Real.hasDerivAt_cosh t)).sub (Real.hasDerivAt_sinh t)
    rw [hd.deriv]
    rcases le_or_lt 0 t with ht | ht
    · have hs : 0 ≤ Real.sinh t := Real.sinh_nonneg_iff.mpr ht
      nlinarith
    · have hs : Real.sinh t < 0 := Real.sinh_neg_iff.mpr ht
      nlinarith

theorem sinh_le_mul_cosh {x : ℝ} (hx : 0 ≤ x) : Real.sinh x ≤ x * Real.cosh x := by
  have h := mul_cosh_sub_sinh_monotone hx
  simp only [Real.cosh_zero, Real.sinh_zero, zero_mul, sub_zero] at h
  linarith [h]

theorem tanh_le_id {x : ℝ} (hx : 0 ≤ x) : Real.tanh x ≤ x := by
  rw [Real.tanh_eq_sinh_div_cosh, div_le_iff₀ (Real.cosh_pos x)]
  exact sinh_le_mul_cosh hx

theorem tanh_nonneg {x : ℝ} (hx : 0 ≤ x) : 0 ≤ Real.tanh x := by
  rw [Real.tanh_eq_sinh_div_cosh]
  exact div_nonneg (Real.sinh_nonneg_iff.mpr hx) (Real.cosh_pos x).le

theorem tanh_div_self_nonneg (c : ℝ) : 0 ≤ Real.tanh c / c := by
  rcases lt_trichotomy c 0 with hc | hc | hc
  · have hx : Real.tanh c = -Real.tanh (-c) := by
      rw [← Real.tanh_neg, neg_neg]
    rw [hx, neg_div, ← div_neg]
    exact div_nonneg (tanh_nonneg (by linarith)) (by linarith)
  · simp [hc, Real.tanh_zero]
  · exact div_nonneg (tanh_nonneg hc.le) hc.le

theorem tanh_div_self_le_one (c : ℝ) : Real.tanh c / c ≤ 1 := by
  rcases lt_trichotomy c 0 with hc | hc | hc
  · have hx : Real.tanh c = -Real.tanh (-c) := by
      rw [← Real.tanh_neg, neg_neg]
    rw [hx, neg_div, ← div_neg]
    rw [div_le_one (by linarith : (0:ℝ) < -c)]
    exact tanh_le_id (by linarith)
  · simp [hc, Real.tanh_zero]
  · rw [div_le_one hc]
    exact tanh_le_id hc.le

theorem combo_le_max (t a b : ℝ) (h0 : 0 ≤ t) (h1 : t ≤ 1) :
    t * a + (1 - t) * b ≤ max a b := by
  rcases le_total a b with h | h
  · calc t * a + (1 - t) * b ≤ t * b + (1 - t) * b := by nlinarith
      _ = b := by ring
      _ ≤ max a b := le_max_right a b
  · calc t * a + (1 - t) * b ≤ t * a + (1 - t) * a := by nlinarith
      _ = a := by ring
      _ ≤ max a b := le_max_left a b

theorem dampPoint_bounds (k x me ma r : ℝ) :
    |dampPoint k x me ma - me| ≤ |x - me| ∧
    |dampPoint k x me ma - r| ≤ max |x - r| |me - r| := by
  unfold dampPoint
  by_cases hz : |(x - me) / (ma + dampEps)| > zTol
  · simp only [if_pos hz]
    set c := min (max ((x - me) / (ma + dampEps)) (-k)) k with hc
    have ht0 : 0 ≤ Real.tanh c / c := tanh_div_self_nonneg c
    have ht1 : Real.tanh c / c ≤ 1 := tanh_div_self_le_one c
    have hval : me + (x - me) * Real.tanh c / c = me + Real.tanh c / c * (x - me) := by
      ring
    rw [hval]
    constructor
    · have hrw : me + Real.tanh c / c * (x - me) - me = Real.tanh c / c * (x - me) := by
        ring
      rw [hrw, abs_mul, abs_of_nonneg ht0]
      exact mul_le_of_le_one_left (abs_nonneg _) ht1
    · have hdec : me + Real.tanh c / c * (x - me) - r =
          Real.tanh c / c * (x - r) + (1 - Real.tanh c / c) * (me - r) := by
        ring
      rw [hdec]
      calc |Real.tanh c / c * (x - r) + (1 - Real.tanh c / c) * (me - r)| ≤
            |Real.tanh c / c * (x - r)| + |(1 - Real.tanh c / c) * (me - r)| := abs_add _ _
        _ = Real.tanh c / c * |x - r| + (1 - Real.tanh c / c) * |me - r| := by
            rw [abs_mul, abs_mul, abs_of_nonneg ht0,
              abs_of_nonneg (show (0:ℝ) ≤ 1 - Real.tanh c / c by linarith)]
        _ ≤ max |x - r| |me - r| :=
            combo_le_max _ _ _ ht0 ht1
  · simp only [if_neg hz]
    exact ⟨le_refl _, le_max_left _ _⟩

theorem getD_map_range {β : Type} (n : ℕ) (f : ℕ → Option β) (i : ℕ) :
    ((List.range n).map f).getD i none = if i < n then f i else none := by
  by_cases hi : i < n
  · rw [if_pos hi]
    rw [List.getD_eq_getElem?_getD, List.getElem?_map, List.getElem?_range hi]
    rfl
  · rw [if_neg hi]
    apply List.getD_eq_default
    rw [List.length_map, List.length_range]
    omega

/-- Claim C4 (confirmed): damp mode keeps the series length and missing
pattern (no point is deleted; NaN in, NaN out), every output value is a
convex combination of the raw value and the rolling median — its deviation
from the rolling median never exceeds the raw deviation, with the tanh-clamp
factor tanh(c)/c in [0, 1] — and against any reference value r (e.g. the
un-spiked value at an injected spike) the output deviation is bounded by the
larger of the raw deviation and the median's deviation. -/
theorem C4_damp_mode (window : ℕ) (k r : ℝ) (s : List (Option ℝ)) (i : ℕ) :
    (robust_dampen window k s).length = s.length ∧
    ((robust_dampen window k s).getD i none).isSome = (s.getD i none).isSome ∧
    |oval ((robust_dampen window k s).getD i none) - medAt window s i| ≤
      |oval (s.getD i none) - medAt window s i| ∧
    |oval ((robust_dampen window k s).getD i none) - r| ≤
      max |oval (s.getD i none) - r| |medAt window s i - r| := by
  have hlen : (robust_dampen window k s).length = s.length := by
    simp [robust_dampen]
  have hget : (robust_dampen window k s).getD i none =
      if i < s.length then dampAt window k s i else none :=
    getD_map_range s.length (dampAt window k s) i
  by_cases hi : i < s.length
  · rw [if_pos hi] at hget
    rcases hs : s.getD i none with _ | x
    · have hda : dampAt window k s i = none := by
        unfold dampAt
        rw [hs]
      rw [hget, hda]
      exact ⟨hlen, rfl, le_refl _, le_max_left _ _⟩
    · rcases hm : (rollingMedian window s).getD i none with _ | me
      · have hda : dampAt window k s i = some x := by
          unfold dampAt
          rw [hs, hm]
        rw [hget, hda]
        exact ⟨hlen, rfl, le_refl _, le_max_left _ _⟩
      · rcases hma : (madSeries window s).getD i none with _ | ma
        · have hda : dampAt window k s i = some x := by
            unfold dampAt
            rw [hs, hm, hma]
          rw [hget, hda]
          exact ⟨hlen, rfl, le_refl _, le_max_left _ _⟩
        · have hda : dampAt window k s i = some (dampPoint k x me ma) := by
            unfold dampAt
            rw [hs, hm, hma]
          have hmed : medAt window s i = me := by
            unfold medAt
            rw [hm]
            rfl
          rw [hget, hda, hmed]
          have hb := dampPoint_bounds k x me ma r
          exact ⟨hlen, rfl, hb.1, hb.2⟩
  · rw [if_neg hi] at hget
    have hsd : s.getD i none = none := by
      apply List.getD_eq_default
      omega
    rw [hget, hsd]
    exact ⟨hlen, rfl, le_refl _, le_max_left _ _⟩
